import Mathlib

/-!
Shallow embedding of the supp-ts request dispatcher (`src/client.ts`, the
`HttpClient` class), its error taxonomy (`src/errors.ts`) and the `Supp`
constructor (`src/index.ts`), together with proofs of the spec's claims
about them.  JavaScript runtime values that the dispatcher manipulates are
modelled explicitly: parsed JSON bodies as an inductive `Json`, thrown
values as `ThrownError` (a typed `SuppError` or a bare `Error`), and the
transport (`fetch` plus the abort timer) as a function from attempt index
to the attempt's outcome.
-/

namespace SuppTs

/-- Parsed JSON values, as produced by `response.json()`. -/
inductive Json where
  | null
  | bool (b : Bool)
  | num (n : Int)
  | str (s : String)
  | arr (elems : List Json)
  | obj (fields : List (String × Json))

/-- JavaScript `value === null` on a parsed JSON value. -/
def Json.isNull : Json → Bool
  | .null => true
  | _ => false

/-- JavaScript `String(value)` coercion on a parsed JSON value (used when a
non-string value reaches a string position, e.g. an `Error` message).  An
array stringifies via `Array.prototype.join`, which maps a `null` (or
`undefined`) element to the empty string, not to `"null"`. -/
def Json.jsString : Json → String
  | .null => "null"
  | .bool b => if b then "true" else "false"
  | .num n => toString n
  | .str s => s
  | .arr xs =>
      String.intercalate ","
        (xs.attach.map fun x => if x.1.isNull then "" else Json.jsString x.1)
  | .obj _ => "[object Object]"
decreasing_by
  have h := List.sizeOf_lt_of_mem x.2
  simp only [Json.arr.sizeOf_spec]
  omega

/-- First binding of `key` in an object's field list. -/
def lookupField : List (String × Json) → String → Option Json
  | [], _ => none
  | (k, v) :: rest, key => if k = key then some v else lookupField rest key

/-- JavaScript property access `json.key` on a parsed JSON value.  On
`null` it throws a `TypeError` (modelled as `.error` with the V8 message);
on an object it yields the binding, or `undefined` (`none`) when the key
is absent; on every other value (booleans, numbers, strings, arrays) it
yields `undefined` without throwing. -/
def Json.getField : Json → String → Except String (Option Json)
  | .null, key => .error ("Cannot read properties of null (reading '" ++ key ++ "')")
  | .obj fields, key => .ok (lookupField fields key)
  | _, _ => .ok none

/-- Escaping applied by `JSON.stringify` to string contents (the claims never
inspect escaped text; quotes and backslashes cover the bodies that occur). -/
def escapeJsonString (s : String) : String :=
  s.toList.foldl
    (fun acc c =>
      acc ++ (if c = '"' then "\\\"" else if c = '\\' then "\\\\" else String.singleton c))
    ""

/-- `JSON.stringify` on a parsed JSON value. -/
def Json.stringify : Json → String
  | .null => "null"
  | .bool b => if b then "true" else "false"
  | .num n => toString n
  | .str s => "\"" ++ escapeJsonString s ++ "\""
  | .arr xs =>
      "[" ++ String.intercalate "," (xs.attach.map fun x => Json.stringify x.1) ++ "]"
  | .obj fs =>
      "\x7b" ++
        String.intercalate ","
          (fs.attach.map fun f =>
            "\"" ++ escapeJsonString f.1.1 ++ "\":" ++ Json.stringify f.1.2) ++
        "\x7d"
decreasing_by
  · have h := List.sizeOf_lt_of_mem x.2
    simp only [Json.arr.sizeOf_spec]
    omega
  · have h := List.sizeOf_lt_of_mem f.2
    have h2 : sizeOf f.1.2 < sizeOf f.1 := by
      obtain ⟨⟨k, v⟩, hm⟩ := f
      simp only [Prod.mk.sizeOf_spec]
      omega
    simp only [Json.obj.sizeOf_spec]
    omega

/-- Scalar query-parameter values (`string | number | boolean`); `number`
is modelled as `Int`, covering every numeric literal the claims use. -/
inductive Scalar where
  | s (v : String)
  | i (v : Int)
  | b (v : Bool)
  deriving DecidableEq

/-- JavaScript `String(value)` on a query scalar. -/
def Scalar.jsString : Scalar → String
  | .s v => v
  | .i v => toString v
  | .b v => if v then "true" else "false"

/-! ## Error taxonomy (`src/errors.ts`) -/

/-- The `SuppError` class: a typed error with `name`, `message`, `status`
and `code` fields. -/
structure SuppError where
  name : String
  message : String
  status : Nat
  code : String
  deriving DecidableEq

/-- The `SuppError` constructor: `code` defaults to `` `HTTP_${status}` ``. -/
def mkSuppError (message : String) (status : Nat) (code : Option String) : SuppError :=
  { name := "SuppError", message := message, status := status
    code := code.getD ("HTTP_" ++ toString status) }

/-- `AuthenticationError`: message defaults to "Invalid or missing API key". -/
def AuthenticationError (message : Option String) : SuppError :=
  { name := "AuthenticationError", message := message.getD "Invalid or missing API key"
    status := 401, code := "AUTHENTICATION_ERROR" }

/-- `InsufficientBalanceError`. -/
def InsufficientBalanceError (message : Option String) : SuppError :=
  { name := "InsufficientBalanceError", message := message.getD "Insufficient balance"
    status := 402, code := "INSUFFICIENT_BALANCE" }

/-- `ForbiddenError`. -/
def ForbiddenError (message : Option String) : SuppError :=
  { name := "ForbiddenError", message := message.getD "Insufficient permissions"
    status := 403, code := "FORBIDDEN" }

/-- `NotFoundError`. -/
def NotFoundError (message : Option String) : SuppError :=
  { name := "NotFoundError", message := message.getD "Resource not found"
    status := 404, code := "NOT_FOUND" }

/-- `RateLimitError`. -/
def RateLimitError (message : Option String) : SuppError :=
  { name := "RateLimitError", message := message.getD "Rate limit or spend cap exceeded"
    status := 429, code := "RATE_LIMITED" }

/-- `ValidationError` (no default message in the source). -/
def ValidationError (message : String) : SuppError :=
  { name := "ValidationError", message := message, status := 400, code := "VALIDATION_ERROR" }

/-- `HttpClient.buildError` (lines 133-150): the status → error-kind
switch, falling through to a generic `SuppError` with the default
`` `HTTP_${status}` `` code. -/
def buildError (status : Nat) (message : String) : SuppError :=
  if status = 400 then ValidationError message
  else if status = 401 then AuthenticationError (some message)
  else if status = 402 then InsufficientBalanceError (some message)
  else if status = 403 then ForbiddenError (some message)
  else if status = 404 then NotFoundError (some message)
  else if status = 429 then RateLimitError (some message)
  else mkSuppError message status none

/-- A value thrown inside the dispatcher: either a typed `SuppError` or a
plain JavaScript `Error` carrying only a message (the `lastError` slot of
`HttpClient.request` can hold either). -/
inductive ThrownError where
  | supp (e : SuppError)
  | plain (message : String)
  deriving DecidableEq

/-! ## Client configuration (`HttpClient` and `Supp` constructors) -/

def DEFAULT_BASE_URL : String := "https://api.supp.support"

def DEFAULT_TIMEOUT : Nat := 30000

def DEFAULT_MAX_RETRIES : Nat := 2

/-- `.replace(/\/$/, "")`: strip one trailing slash if present. -/
def stripTrailingSlash (s : String) : String :=
  if s.toList.getLast? = some '/' then String.mk s.toList.dropLast else s

/-- The options bag accepted by both constructors
(`{ baseUrl?, maxRetries?, timeout? }`). -/
structure ClientOptions where
  baseUrl : Option String
  maxRetries : Option Nat
  timeout : Option Nat
  deriving DecidableEq

/-- The private state of a constructed `HttpClient`. -/
structure ClientConfig where
  apiKey : String
  baseUrl : String
  maxRetries : Nat
  timeout : Nat
  deriving DecidableEq

/-- The `HttpClient` constructor. -/
def HttpClient.make (apiKey : String) (options : ClientOptions) : ClientConfig :=
  { apiKey := apiKey
    baseUrl := stripTrailingSlash (options.baseUrl.getD DEFAULT_BASE_URL)
    maxRetries := options.maxRetries.getD DEFAULT_MAX_RETRIES
    timeout := options.timeout.getD DEFAULT_TIMEOUT }

/-- The `Supp` constructor (`src/index.ts`): rejects a falsy API key (for a
string, exactly `""`) before building the `HttpClient`; otherwise forwards
`baseUrl`, `maxRetries` and `timeout` unchanged. -/
def Supp.create (apiKey : String) (options : ClientOptions) : Except String ClientConfig :=
  if apiKey = "" then
    .error "API key is required. Get one at https://supp.support/dashboard"
  else
    .ok (HttpClient.make apiKey options)

/-! ## URL construction (`HttpClient.buildUrl`) -/

/-- Split a character list at the first `://`, yielding the scheme part and
what follows. -/
def breakOnScheme : List Char → Option (List Char × List Char)
  | [] => none
  | ':' :: '/' :: '/' :: rest => some ([], rest)
  | c :: rest => (breakOnScheme rest).map (fun p => (c :: p.1, p.2))

/-- The `scheme://host` part of a URL string: everything up to the first
slash after the scheme separator. -/
def urlOrigin (base : String) : String :=
  match breakOnScheme base.toList with
  | some (scheme, rest) =>
    String.mk (scheme ++ (':' :: '/' :: '/' :: rest.takeWhile (fun c => decide (c ≠ '/'))))
  | none => base

/-- `new URL(path, base).toString()` before query handling.  The model is
exact for the shapes the client produces: every resource module passes an
absolute path starting with `/`, which WHATWG resolution maps to the base's
origin followed by that path; a full URL passed as `path` stands alone.
A bare relative path (never produced by this repository) is resolved
against the origin. -/
def resolveUrl (path base : String) : String :=
  match path.toList with
  | '/' :: _ => urlOrigin base ++ path
  | _ => if (breakOnScheme path.toList).isSome then path
         else urlOrigin base ++ "/" ++ path

/-- Bytes left verbatim by the `application/x-www-form-urlencoded`
serializer used by `URLSearchParams`: ASCII alphanumerics and `*`, `-`,
`.`, `_`. -/
def isUrlencodedSafeByte (b : Nat) : Bool :=
  (48 ≤ b && b ≤ 57) || (65 ≤ b && b ≤ 90) || (97 ≤ b && b ≤ 122) ||
    b = 42 || b = 45 || b = 46 || b = 95

/-- Upper-case hexadecimal digit. -/
def hexDigit (n : Nat) : Char :=
  if n < 10 then Char.ofNat (48 + n) else Char.ofNat (55 + n)

/-- One byte of `application/x-www-form-urlencoded` output: space becomes
`+`, safe bytes stand for themselves, everything else is percent-encoded. -/
def percentEncodeByte (b : Nat) : String :=
  if b = 32 then "+"
  else if isUrlencodedSafeByte b then String.singleton (Char.ofNat b)
  else
    "%" ++ String.singleton (hexDigit (b / 16)) ++
      String.singleton (hexDigit (b % 16))

/-- The UTF-8 bytes of one character. -/
def utf8Bytes (c : Char) : List Nat :=
  let n := c.toNat
  if n < 128 then [n]
  else if n < 2048 then [192 + n / 64, 128 + n % 64]
  else if n < 65536 then [224 + n / 4096, 128 + (n / 64) % 64, 128 + n % 64]
  else [240 + n / 262144, 128 + (n / 4096) % 64, 128 + (n / 64) % 64, 128 + n % 64]

/-- URL-encode one key or value over its UTF-8 bytes. -/
def urlencodeComponent (s : String) : String :=
  s.toList.foldl (fun acc c => acc ++ String.join ((utf8Bytes c).map percentEncodeByte)) ""

/-- `URLSearchParams.set`: replace the first pair with the given key and
drop any later duplicates, else append. -/
def searchParamsSet : List (String × String) → String → String → List (String × String)
  | [], key, value => [(key, value)]
  | p :: rest, key, value =>
    if p.1 = key then (key, value) :: rest.filter (fun q => q.1 != key)
    else p :: searchParamsSet rest key value

/-- `URLSearchParams.toString()`: `k=v` pairs joined with `&`, keys and
values URL-encoded. -/
def serializeSearchParams (ps : List (String × String)) : String :=
  String.intercalate "&" (ps.map fun p => urlencodeComponent p.1 ++ "=" ++ urlencodeComponent p.2)

/-- `HttpClient.buildUrl`: resolve the path against the base URL, then
`searchParams.set` each query entry whose value is not `undefined`,
stringifying the scalar with `String(value)`.  (The one caller that embeds
a query string directly in `path` passes no `query` object, so the model
keeps such a path verbatim.) -/
def buildUrlStep (acc : List (String × String)) (kv : String × Option Scalar) :
    List (String × String) :=
  match kv.2 with
  | some v => searchParamsSet acc kv.1 (Scalar.jsString v)
  | none => acc

/-- `HttpClient.buildUrl` itself: resolve, then fold the query entries. -/
def buildUrl (cfg : ClientConfig) (path : String)
    (query : Option (List (String × Option Scalar))) : String :=
  let u := resolveUrl path cfg.baseUrl
  let ps :=
    match query with
    | none => []
    | some q => q.foldl buildUrlStep []
  if ps.isEmpty then u else u ++ "?" ++ serializeSearchParams ps

/-! ## The request dispatcher (`HttpClient.request`) -/

/-- The `RequestOptions` descriptor: method, path, optional JSON-object
body, optional query map.  A query value of `none` is an entry whose value
is `undefined`. -/
structure RequestOptions where
  method : String
  path : String
  body : Option (List (String × Json))
  query : Option (List (String × Option Scalar))

/-- The `RequestInit` value handed to `fetch` on every attempt: built once
before the retry loop (lines 40-52 of the client). -/
structure RequestInit where
  method : String
  headers : List (String × String)
  body : Option String

/-- Lines 40-52: headers always carry `X-API-Key` and `Content-Type`; the
body is serialized exactly when a body object is present (always truthy)
and the method is not GET. -/
def buildInit (cfg : ClientConfig) (options : RequestOptions) : RequestInit :=
  { method := options.method
    headers := [("X-API-Key", cfg.apiKey), ("Content-Type", "application/json")]
    body :=
      match options.body with
      | some b => if options.method ≠ "GET" then some (Json.stringify (Json.obj b)) else none
      | none => none }

/-- What the transport (`fetch` under the abort timer) yields for one
attempt: a response with a status and its parsed JSON body (`none` when
the body does not parse as JSON), an abort fired by the timeout timer
(a `DOMException` named `AbortError`), or any other network-level failure
carrying a message. -/
inductive AttemptResult where
  | response (status : Nat) (body : Option Json)
  | timeoutAbort
  | netError (message : String)

/-- `response.ok`: status in [200,300). -/
def responseOk (status : Nat) : Bool :=
  200 ≤ status && status < 300

/-- Line 67, `json.data ?? json`: the property access throws a `TypeError`
when the decoded body is JSON `null`; otherwise the result is the `data`
property when it exists and is not `null`/`undefined`, else the whole
decoded body. -/
def unwrapData (json : Json) : Except String Json :=
  match json.getField "data" with
  | .error m => .error m
  | .ok (some v) => .ok (if v.isNull then json else v)
  | .ok none => .ok json

/-- Lines 70-73: `errorBody.error ?? synthesized`.  The property access
throws a `TypeError` when the decoded error body is JSON `null` (this
happens before the `status < 500` test at line 76); otherwise the message
is the `error` field coerced to a string by the `Error` constructor, or
the synthesized text when the field is absent or `null`. -/
def extractMessage (errorBody : Json) (status : Nat) : Except String String :=
  match errorBody.getField "error" with
  | .error m => .error m
  | .ok (some v) =>
    .ok (if v.isNull then "Request failed with status " ++ toString status else v.jsString)
  | .ok none => .ok ("Request failed with status " ++ toString status)

/-- How one iteration of the retry loop ends. -/
inductive StepOutcome where
  | success (value : Json)
  | raise (e : SuppError)
  | record (e : ThrownError)

/-- The body of the `try`/`catch` for one attempt (lines 57-91): a 2xx
response returns its unwrapped body — unless the body is unparseable
(`response.json()` throws a `SyntaxError`) or is JSON `null` (`json.data`
throws a `TypeError`), both caught at line 81 and recorded at line 89 as a
plain transient error.  A non-2xx response whose decoded error body is
JSON `null` likewise throws a `TypeError` at `errorBody.error` before the
`status < 500` test, so it too is recorded as a plain transient error;
otherwise a status below 500 throws the mapped typed error (rethrown by
the `catch` since it is a `SuppError`) and a 500+ status records the
generic `SuppError`.  An abort is recorded as the TIMEOUT error; any other
transport failure is recorded as the raw error. -/
def attemptStep : AttemptResult → StepOutcome
  | .response status body =>
    if responseOk status then
      match body with
      | some json =>
        match unwrapData json with
        | .ok v => .success v
        | .error m => .record (.plain m)
      | none => .record (.plain "Unexpected end of JSON input")
    else
      let errorBody := body.getD (Json.obj [])
      match extractMessage errorBody status with
      | .error m => .record (.plain m)
      | .ok message =>
        if status < 500 then .raise (buildError status message)
        else .record (.supp (mkSuppError message status none))
  | .timeoutAbort => .record (.supp (mkSuppError "Request timed out" 408 (some "TIMEOUT")))
  | .netError message => .record (.plain message)

/-- Line 95: `Math.min(1000 * 2 ** attempt, 8000)`. -/
def backoffDelay (attempt : Nat) : Nat :=
  min (1000 * 2 ^ attempt) 8000

/-- The overall result of a dispatch. -/
inductive Outcome where
  | ok (value : Json)
  | err (e : ThrownError)

/-- Observable trace of one `request` call: how many `fetch` calls were
made, which backoff sleeps ran (in order), and the returned or thrown
outcome. -/
structure ExecTrace where
  attempts : Nat
  sleeps : List Nat
  outcome : Outcome

/-- The retry loop (lines 56-99) at loop index `attempt` with `remaining`
further attempts allowed after the current one (`remaining =
maxRetries - attempt`).  Every iteration either returns, rethrows a
`SuppError` built for a 4xx, or records `lastError` and, when attempts
remain, sleeps the backoff delay and continues; when none remain the loop
exits and line 99 throws the recorded `lastError` (the `?? new
SuppError("Request failed after retries", 500)` fallback is unreachable:
every non-exiting iteration records an error). -/
def runAttempts (transport : Nat → AttemptResult) (attempt : Nat) (remaining : Nat) :
    ExecTrace :=
  match attemptStep (transport attempt) with
  | .success v => ⟨1, [], .ok v⟩
  | .raise e => ⟨1, [], .err (.supp e)⟩
  | .record e =>
    match remaining with
    | 0 => ⟨1, [], .err e⟩
    | r + 1 =>
      let rest := runAttempts transport (attempt + 1) r
      ⟨rest.attempts + 1, backoffDelay attempt :: rest.sleeps, rest.outcome⟩

/-- Everything `HttpClient.request` determines: the URL and `RequestInit`
built once before the loop (and reused identically on every attempt), and
the trace of the retry loop itself. -/
structure DispatchResult where
  url : String
  init : RequestInit
  trace : ExecTrace

/-- `HttpClient.request`, with the transport abstracted as the sequence of
per-attempt results. -/
def request (cfg : ClientConfig) (options : RequestOptions)
    (transport : Nat → AttemptResult) : DispatchResult :=
  { url := buildUrl cfg options.path options.query
    init := buildInit cfg options
    trace := runAttempts transport 0 cfg.maxRetries }

/-! ## Helper lemmas about the retry loop -/

/-- The outcome the loop produces at the attempt where it stops: a success
returns, a 4xx raise throws the typed error, and a recorded error on the
final attempt is thrown by line 99. -/
def stepTerminalOutcome : StepOutcome → Outcome
  | .success v => .ok v
  | .raise e => .err (.supp e)
  | .record e => .err e

/-- The error a loop iteration can leave behind, if any. -/
def stepError : StepOutcome → Option ThrownError
  | .success _ => none
  | .raise e => some (.supp e)
  | .record e => some e

/-- Exact trace of the loop when the first `k` attempts record transient
errors and attempt `k` stops it (because it does not record, or because it
is the last allowed attempt): `k + 1` calls, the backoff sleeps for
attempts `0 .. k-1`, and the terminal outcome of attempt `k`. -/
theorem runAttempts_trace (transport : Nat → AttemptResult) :
    ∀ (k r a : Nat), k ≤ r →
      (∀ i, i < k → ∃ e, attemptStep (transport (a + i)) = .record e) →
      (k = r ∨ ∀ e, attemptStep (transport (a + k)) ≠ .record e) →
      runAttempts transport a r =
        ⟨k + 1, (List.range k).map (fun i => backoffDelay (a + i)),
          stepTerminalOutcome (attemptStep (transport (a + k)))⟩ := by
  intro k
  induction k with
  | zero =>
    intro r a hkr hpre hstop
    simp only [Nat.add_zero] at hstop ⊢
    rw [runAttempts]
    cases hs : attemptStep (transport a) with
    | success v => simp [stepTerminalOutcome]
    | raise e => simp [stepTerminalOutcome]
    | record e =>
      rcases hstop with hr | hne
      · cases hr
        simp [stepTerminalOutcome]
      · exact absurd hs (hne e)
  | succ k ih =>
    intro r a hkr hpre hstop
    obtain ⟨r', rfl⟩ : ∃ r', r = r' + 1 := ⟨r - 1, by omega⟩
    obtain ⟨e0, he0⟩ := hpre 0 (by omega)
    rw [Nat.add_zero] at he0
    have ihres := ih r' (a + 1) (by omega)
      (fun i hi => by
        have h := hpre (i + 1) (by omega)
        rwa [show a + (i + 1) = a + 1 + i by omega] at h)
      (by
        rcases hstop with h | h
        · left; omega
        · right
          intro e
          rw [show a + 1 + k = a + (k + 1) by omega]
          exact h e)
    rw [runAttempts, he0]
    simp only [ihres]
    have harg : a + 1 + k = a + (k + 1) := by omega
    rw [harg]
    simp only [ExecTrace.mk.injEq]
    refine ⟨trivial, ?_, trivial⟩
    rw [List.range_succ_eq_map, List.map_cons, List.map_map]
    congr 1
    refine List.map_congr_left ?_
    intro i _
    simp only [Function.comp_apply]
    congr 1
    omega

/-- Any error in the loop's outcome was produced by one of the attempts. -/
theorem runAttempts_err_from_step (transport : Nat → AttemptResult) :
    ∀ (r a : Nat) (t : ThrownError),
      (runAttempts transport a r).outcome = .err t →
      ∃ i, i ≤ r ∧ stepError (attemptStep (transport (a + i))) = some t := by
  intro r
  induction r with
  | zero =>
    intro a t h
    rw [runAttempts] at h
    cases hs : attemptStep (transport a) with
    | success v => rw [hs] at h; simp at h
    | raise e =>
      rw [hs] at h
      simp only at h
      cases h
      exact ⟨0, by omega, by rw [Nat.add_zero, hs]; rfl⟩
    | record e =>
      rw [hs] at h
      simp only at h
      cases h
      exact ⟨0, by omega, by rw [Nat.add_zero, hs]; rfl⟩
  | succ r ih =>
    intro a t h
    rw [runAttempts] at h
    cases hs : attemptStep (transport a) with
    | success v => rw [hs] at h; simp at h
    | raise e =>
      rw [hs] at h
      simp only at h
      cases h
      exact ⟨0, by omega, by rw [Nat.add_zero, hs]; rfl⟩
    | record e =>
      rw [hs] at h
      simp only at h
      obtain ⟨i, hi, hstep⟩ := ih (a + 1) t h
      refine ⟨i + 1, by omega, ?_⟩
      rwa [show a + (i + 1) = a + 1 + i by omega]

/-- Property access never throws on a value other than the JSON literal
null. -/
theorem getField_ok_of_ne_null (j : Json) (key : String) (h : j ≠ .null) :
    ∃ o, j.getField key = .ok o := by
  cases j with
  | null => exact absurd rfl h
  | bool b => exact ⟨none, rfl⟩
  | num n => exact ⟨none, rfl⟩
  | str s => exact ⟨none, rfl⟩
  | arr xs => exact ⟨none, rfl⟩
  | obj fs => exact ⟨lookupField fs key, rfl⟩

/-- `json.data ?? json` succeeds on every decoded body except literal null. -/
theorem unwrapData_ok_of_ne_null (j : Json) (h : j ≠ .null) :
    ∃ v, unwrapData j = .ok v := by
  obtain ⟨o, ho⟩ := getField_ok_of_ne_null j "data" h
  cases o with
  | none => exact ⟨j, by rw [unwrapData, ho]⟩
  | some v => exact ⟨if v.isNull then j else v, by rw [unwrapData, ho]⟩

/-- Message extraction succeeds on every decoded error body except literal
null. -/
theorem extractMessage_ok_of_ne_null (body : Json) (st : Nat) (h : body ≠ .null) :
    ∃ m, extractMessage body st = .ok m := by
  obtain ⟨o, ho⟩ := getField_ok_of_ne_null body "error" h
  cases o with
  | none => exact ⟨_, by rw [extractMessage, ho]⟩
  | some v => exact ⟨_, by rw [extractMessage, ho]⟩

/-- The error body (`body ?? {}` after decode) is not literal null unless
the decoded body itself was `some null`. -/
theorem getD_ne_null (b : Option Json) (h : b ≠ some Json.null) :
    b.getD (Json.obj []) ≠ Json.null := by
  cases b with
  | none =>
    intro hc
    rw [Option.getD_none] at hc
    exact Json.noConfusion hc
  | some j =>
    intro hc
    rw [Option.getD_some] at hc
    exact h (by rw [hc])

/-- A 2xx response whose parsed body admits the `json.data` access returns
the unwrapped value. -/
theorem attemptStep_2xx (st : Nat) (j : Json) (h1 : 200 ≤ st) (h2 : st < 300)
    (v : Json) (hv : unwrapData j = .ok v) :
    attemptStep (.response st (some j)) = .success v := by
  have hok : responseOk st = true := by simp [responseOk]; omega
  simp [attemptStep, hok, hv]

/-- A non-2xx response below 500 whose message extraction succeeds raises
the mapped typed error. -/
theorem attemptStep_below500 (st : Nat) (bd : Option Json)
    (hok : responseOk st = false) (h5 : st < 500)
    (msg : String) (hmsg : extractMessage (bd.getD (Json.obj [])) st = .ok msg) :
    attemptStep (.response st bd) = .raise (buildError st msg) := by
  cases bd with
  | none =>
    rw [Option.getD_none] at hmsg
    simp [attemptStep, hok, hmsg, h5]
  | some j =>
    rw [Option.getD_some] at hmsg
    simp [attemptStep, hok, hmsg, h5]

/-- A 500+ response whose message extraction succeeds records the generic
`SuppError` as the last error. -/
theorem attemptStep_5xx (st : Nat) (bd : Option Json) (h : 500 ≤ st)
    (msg : String) (hmsg : extractMessage (bd.getD (Json.obj [])) st = .ok msg) :
    attemptStep (.response st bd) = .record (.supp (mkSuppError msg st none)) := by
  have hok : responseOk st = false := by simp [responseOk]; omega
  have h5 : ¬ st < 500 := by omega
  cases bd with
  | none =>
    rw [Option.getD_none] at hmsg
    simp [attemptStep, hok, hmsg, h5]
  | some j =>
    rw [Option.getD_some] at hmsg
    simp [attemptStep, hok, hmsg, h5]

/-- Whatever its body — even literal null, whose property access throws
the `TypeError` recorded as a plain error — a 500+ response always records
a transient last error. -/
theorem attemptStep_5xx_record (st : Nat) (bd : Option Json) (h : 500 ≤ st) :
    ∃ e, attemptStep (.response st bd) = .record e := by
  have hok : responseOk st = false := by simp [responseOk]; omega
  rcases hm : extractMessage (bd.getD (Json.obj [])) st with m | m
  · refine ⟨.plain m, ?_⟩
    cases bd with
    | none =>
      rw [Option.getD_none] at hm
      simp [attemptStep, hok, hm]
    | some j =>
      rw [Option.getD_some] at hm
      simp [attemptStep, hok, hm]
  · exact ⟨.supp (mkSuppError m st none), attemptStep_5xx st bd h m hm⟩

/-- The generic default code `` `HTTP_${status}` `` is never empty. -/
theorem http_code_ne_empty (st : Nat) : ("HTTP_" ++ toString st) ≠ "" := by
  intro h
  have hlen := congrArg String.length h
  rw [String.length_append] at hlen
  have h5 : ("HTTP_" : String).length = 5 := rfl
  have h0 : ("" : String).length = 0 := rfl
  omega

/-- Every error `buildError` produces carries a nonempty code. -/
theorem buildError_code_ne_empty (st : Nat) (m : String) : (buildError st m).code ≠ "" := by
  rw [buildError]
  split_ifs <;> first
    | exact http_code_ne_empty st
    | simp [ValidationError, AuthenticationError, InsufficientBalanceError,
        ForbiddenError, NotFoundError, RateLimitError]

/-- Trace of a whole dispatch whose first attempt draws a non-2xx response
below 500 with a successful message extraction: one call, no sleep, the
mapped error raised. -/
theorem request_below500_trace (cfg : ClientConfig) (options : RequestOptions)
    (transport : Nat → AttemptResult) (s : Nat) (b : Option Json)
    (h0 : transport 0 = .response s b) (hok : responseOk s = false) (h5 : s < 500)
    (msg : String) (hmsg : extractMessage (b.getD (Json.obj [])) s = .ok msg) :
    (request cfg options transport).trace =
      ⟨1, [], .err (.supp (buildError s msg))⟩ := by
  have hstep : attemptStep (transport 0) = .raise (buildError s msg) := by
    rw [h0]
    exact attemptStep_below500 s b hok h5 msg hmsg
  have htr := runAttempts_trace transport 0 cfg.maxRetries 0 (Nat.zero_le _)
    (fun i hi => absurd hi (Nat.not_lt_zero i))
    (Or.inr (by
      rw [Nat.add_zero, hstep]
      exact fun e h => StepOutcome.noConfusion h))
  show runAttempts transport 0 cfg.maxRetries = _
  rw [htr]
  simp [hstep, stepTerminalOutcome]

/-! ## Helper lemmas about query serialization -/

/-- The query entries whose value is not `undefined`, with `String(value)`
applied — what the claim predicts `buildUrl` appends. -/
def queryPairs (q : List (String × Option Scalar)) : List (String × String) :=
  q.filterMap (fun kv => kv.2.map (fun v => (kv.1, Scalar.jsString v)))

/-- `URLSearchParams.set` with a fresh key appends. -/
theorem searchParamsSet_append (ps : List (String × String)) (key value : String)
    (h : ∀ p ∈ ps, p.1 ≠ key) : searchParamsSet ps key value = ps ++ [(key, value)] := by
  induction ps with
  | nil => rfl
  | cons p rest ih =>
    rw [searchParamsSet]
    rw [if_neg (h p (List.mem_cons_self p rest))]
    rw [ih (fun q hq => h q (List.mem_cons_of_mem p hq))]
    rfl

/-- With pairwise-distinct keys (the shape every object literal produces),
the `buildUrl` fold over `searchParams.set` appends exactly the entries
whose value is not `undefined`. -/
theorem foldl_set_eq_queryPairs (q : List (String × Option Scalar)) :
    ∀ acc : List (String × String),
      (q.map Prod.fst).Nodup →
      (∀ p ∈ acc, p.1 ∉ q.map Prod.fst) →
      q.foldl buildUrlStep acc = acc ++ queryPairs q := by
  induction q with
  | nil => intro acc _ _; simp [queryPairs]
  | cons kv q ih =>
    intro acc hnd hacc
    rw [List.map_cons, List.nodup_cons] at hnd
    obtain ⟨hknotin, hnd'⟩ := hnd
    rw [List.foldl_cons]
    cases hv : kv.2 with
    | none =>
      simp only [buildUrlStep, hv]
      rw [ih acc hnd' (fun p hp => by
        have h := hacc p hp
        rw [List.map_cons] at h
        exact fun hmem => h (List.mem_cons_of_mem _ hmem))]
      simp [queryPairs, hv]
    | some v =>
      simp only [buildUrlStep, hv]
      rw [searchParamsSet_append acc kv.1 (Scalar.jsString v) (fun p hp => by
        have h := hacc p hp
        rw [List.map_cons] at h
        exact fun heq => h (heq ▸ List.mem_cons_self _ _))]
      rw [ih (acc ++ [(kv.1, Scalar.jsString v)]) hnd' (fun p hp => by
        rcases List.mem_append.mp hp with hp | hp
        · have h := hacc p hp
          rw [List.map_cons] at h
          exact fun hmem => h (List.mem_cons_of_mem _ hmem)
        · rw [List.mem_singleton] at hp
          subst hp
          simpa using hknotin)]
      rw [List.append_assoc]
      simp [queryPairs, hv]

/-! ## Claim theorems -/

/-- C5: for every descriptor with method GET, no request body is serialized
or sent, even when the descriptor carries a body field. -/
theorem get_sends_no_body (cfg : ClientConfig) (options : RequestOptions)
    (transport : Nat → AttemptResult) (h : options.method = "GET") :
    (request cfg options transport).init.body = none := by
  cases hb : options.body with
  | none => simp [request, buildInit, hb]
  | some b => simp [request, buildInit, hb, h]

/-- C5 witness: a GET descriptor carrying a body field still sends none. -/
theorem get_sends_no_body_witness :
    (request ⟨"sk", "https://api.supp.support", 2, 30000⟩
        ⟨"GET", "/api/routing", some [("name", Json.str "rule")], none⟩
        (fun _ => .response 200 (some (Json.obj [])))).init.body = none :=
  get_sends_no_body _ _ _ rfl

/-- C3 counterexample: a GET descriptor with no body still carries the
`Content-Type: application/json` header, refuting the claim that the header
is attached only to body-bearing non-GET requests and that a GET or
body-less request carries no Content-Type header. -/
theorem content_type_attached_on_get :
    ("Content-Type", "application/json") ∈
      (request ⟨"sk", "https://api.supp.support", 2, 30000⟩
          ⟨"GET", "/api/intents", none, none⟩
          (fun _ => .response 200 (some (Json.obj [])))).init.headers := by
  simp [request, buildInit]

/-- C3 amended: the dispatcher attaches the `X-API-Key` header and the
`Content-Type: application/json` header on every request — unconditionally,
for every method and whether or not a body is present — and the header list
is built once and reused identically on every attempt. -/
theorem headers_always_attached (cfg : ClientConfig) (options : RequestOptions)
    (transport : Nat → AttemptResult) :
    (request cfg options transport).init.headers =
      [("X-API-Key", cfg.apiKey), ("Content-Type", "application/json")] := rfl

/-- C10: constructing a `Supp` client with an empty (falsy) API key string
fails immediately at construction; with a non-empty key, construction
succeeds and stores the defaults baseUrl `https://api.supp.support`,
maxRetries 2 and timeout 30000 ms, and a supplied base URL has its
trailing slash stripped. -/
theorem supp_constructor_contract :
    Supp.create "" ⟨none, none, none⟩ =
      .error "API key is required. Get one at https://supp.support/dashboard"
    ∧ (∀ key : String, key ≠ "" →
        Supp.create key ⟨none, none, none⟩ =
          .ok ⟨key, "https://api.supp.support", 2, 30000⟩)
    ∧ Supp.create "sk_live_abc123" ⟨some "https://staging.supp.support/", none, none⟩ =
        .ok ⟨"sk_live_abc123", "https://staging.supp.support", 2, 30000⟩ := by
  refine ⟨rfl, ?_, rfl⟩
  intro key hk
  rw [Supp.create, if_neg hk]
  rfl

/-- C10 witness: a concrete non-empty key constructs the default config. -/
theorem supp_constructor_contract_witness :
    Supp.create "sk_live_abc123" ⟨none, none, none⟩ =
      .ok ⟨"sk_live_abc123", "https://api.supp.support", 2, 30000⟩ :=
  supp_constructor_contract.2.1 "sk_live_abc123" (by decide)

/-- C2 counterexample: a 400 response whose body decodes to the JSON
literal null is retried — under `maxRetries = 2` the dispatcher makes 3
attempts with backoff sleeps of 1000 ms and 2000 ms and surfaces the plain
`TypeError` thrown by `errorBody.error`, not a typed error after one
attempt — refuting `exactly one attempt, no backoff sleep, never retried
regardless of maxRetries`. -/
theorem null_body_4xx_is_retried :
    (request ⟨"sk", "https://api.supp.support", 2, 30000⟩
        ⟨"GET", "/api/conversations", none, none⟩
        (fun _ => .response 400 (some Json.null))).trace =
      ⟨3, [1000, 2000],
        .err (.plain "Cannot read properties of null (reading 'error')")⟩ := rfl

/-- C2 amended: a request whose first response has a 4xx status and whose
decoded error body admits the message extraction of lines 70-73 (that is,
the body is not the JSON literal null; an undecodable body, decoded to
`{}`, qualifies) performs exactly one attempt, raises the typed error
mapped by the status→kind table immediately, and performs no backoff
sleep, whatever `maxRetries` is.  A 4xx body of literal null instead
throws a `TypeError` at `errorBody.error` and is retried as transient. -/
theorem no_retry_on_4xx (cfg : ClientConfig) (options : RequestOptions)
    (transport : Nat → AttemptResult) (s : Nat) (b : Option Json)
    (h0 : transport 0 = .response s b) (h4 : 400 ≤ s) (h5 : s < 500)
    (msg : String) (hmsg : extractMessage (b.getD (Json.obj [])) s = .ok msg) :
    (request cfg options transport).trace =
      ⟨1, [], .err (.supp (buildError s msg))⟩ :=
  request_below500_trace cfg options transport s b h0 (by simp [responseOk]; omega) h5 msg hmsg

/-- C2 witness: a 404 with no decodable body stops after one call. -/
theorem no_retry_on_4xx_witness :
    (request ⟨"sk", "https://api.supp.support", 2, 30000⟩
        ⟨"GET", "/api/conversations", none, none⟩
        (fun _ => .response 404 none)).trace =
      ⟨1, [], .err (.supp ⟨"NotFoundError", "Request failed with status 404",
        404, "NOT_FOUND"⟩)⟩ :=
  no_retry_on_4xx _ _ _ 404 none rfl (by omega) (by omega)
    "Request failed with status 404" rfl

/-- C1 counterexample: two 503 responses whose bodies decode to the JSON
literal null, under `maxRetries = 1`, use the claimed retry schedule
(2 attempts, one 1000 ms sleep) but surface the plain `TypeError` thrown
by `errorBody.error` at the last attempt — not the typed error built from
the last attempt's response, as the claim asserts for every 5xx-only
response sequence. -/
theorem null_body_5xx_surfaces_plain_typeerror :
    (request ⟨"sk", "https://api.supp.support", 1, 30000⟩
        ⟨"GET", "/api/analytics", none, none⟩
        (fun _ => .response 503 (some Json.null))).trace =
      ⟨2, [1000],
        .err (.plain "Cannot read properties of null (reading 'error')")⟩ := rfl

/-- C1 amended: when every attempt draws a response with status in
[500,599), the dispatcher performs exactly `maxRetries + 1` attempts (one
outbound call per attempt) and sleeps `min(1000·2^attempt, 8000)` ms
between consecutive attempts, whatever the bodies are; it surfaces the
typed generic error built from the last attempt's response provided that
response's body admits the message extraction of lines 70-73 (i.e. is not
the JSON literal null, whose `errorBody.error` access throws the
`TypeError` surfaced instead).  After a 5xx-only prefix it stops retrying
immediately on an attempt returning a 4xx whose body is not literal null,
or a 2xx whose body parses to JSON other than literal null (an
unparseable or null 2xx body is retried as transient). -/
theorem retries_exhaust_on_5xx (cfg : ClientConfig) (options : RequestOptions)
    (transport : Nat → AttemptResult) (s : Nat → Nat) (b : Nat → Option Json)
    (hresp : ∀ i, transport i = .response (s i) (b i))
    (h5xx : ∀ i, 500 ≤ s i ∧ s i < 599)
    (msg : String)
    (hmsg : extractMessage ((b cfg.maxRetries).getD (Json.obj [])) (s cfg.maxRetries) =
      .ok msg) :
    ((request cfg options transport).trace =
      ⟨cfg.maxRetries + 1, (List.range cfg.maxRetries).map backoffDelay,
        .err (.supp (mkSuppError msg (s cfg.maxRetries) none))⟩)
    ∧ ∀ (transport2 : Nat → AttemptResult) (k : Nat), k ≤ cfg.maxRetries →
        (∀ i, i < k → ∃ si bi, transport2 i = .response si bi ∧ 500 ≤ si ∧ si < 599) →
        ((∃ si ji, transport2 k = .response si (some ji) ∧ 200 ≤ si ∧ si < 300 ∧
            ji ≠ Json.null) ∨
          (∃ si bi, transport2 k = .response si bi ∧ 400 ≤ si ∧ si < 500 ∧
            bi ≠ some Json.null)) →
        (request cfg options transport2).trace.attempts = k + 1 ∧
        (request cfg options transport2).trace.sleeps = (List.range k).map backoffDelay := by
  constructor
  · have hstepn : attemptStep (transport cfg.maxRetries) =
        .record (.supp (mkSuppError msg (s cfg.maxRetries) none)) := by
      rw [hresp cfg.maxRetries]
      exact attemptStep_5xx (s cfg.maxRetries) (b cfg.maxRetries)
        (h5xx cfg.maxRetries).1 msg hmsg
    have htr := runAttempts_trace transport cfg.maxRetries cfg.maxRetries 0 le_rfl
      (fun i _ => by
        rw [Nat.zero_add, hresp i]
        exact attemptStep_5xx_record (s i) (b i) (h5xx i).1)
      (Or.inl rfl)
    show runAttempts transport 0 cfg.maxRetries = _
    rw [htr]
    simp only [Nat.zero_add]
    rw [hstepn]
    rfl
  · intro transport2 k hk hpre hstop
    have hpre2 : ∀ i, i < k → ∃ e, attemptStep (transport2 (0 + i)) = .record e := by
      intro i hi
      obtain ⟨si, bi, heq, h5a, _⟩ := hpre i hi
      rw [Nat.zero_add, heq]
      exact attemptStep_5xx_record si bi h5a
    have hterm : ∀ e, attemptStep (transport2 (0 + k)) ≠ .record e := by
      rw [Nat.zero_add]
      rcases hstop with ⟨si, ji, heq, h2a, h2b, hjn⟩ | ⟨si, bi, heq, h4a, h4b, hbn⟩
      · obtain ⟨v, hv⟩ := unwrapData_ok_of_ne_null ji hjn
        rw [heq, attemptStep_2xx si ji h2a h2b v hv]
        exact fun e h => StepOutcome.noConfusion h
      · obtain ⟨m, hm⟩ := extractMessage_ok_of_ne_null (bi.getD (Json.obj [])) si
          (getD_ne_null bi hbn)
        rw [heq, attemptStep_below500 si bi (by simp [responseOk]; omega) h4b m hm]
        exact fun e h => StepOutcome.noConfusion h
    have htr := runAttempts_trace transport2 k cfg.maxRetries 0 hk hpre2 (Or.inr hterm)
    constructor
    · show (runAttempts transport2 0 cfg.maxRetries).attempts = k + 1
      rw [htr]
    · show (runAttempts transport2 0 cfg.maxRetries).sleeps = _
      rw [htr]
      simp only [Nat.zero_add]

/-- C1 witness: the spec scenario — three consecutive 503 responses under
`maxRetries = 2` yield exactly 3 calls, sleeps of 1000 ms then 2000 ms, and
a generic typed error with status 503 from the third response. -/
theorem retries_exhaust_on_5xx_witness :
    (request ⟨"sk", "https://api.supp.support", 2, 30000⟩
        ⟨"POST", "/api/classify", none, none⟩
        (fun _ => .response 503 none)).trace =
      ⟨3, [1000, 2000], .err (.supp ⟨"SuppError", "Request failed with status 503",
        503, "HTTP_503"⟩)⟩ :=
  (retries_exhaust_on_5xx ⟨"sk", "https://api.supp.support", 2, 30000⟩
    ⟨"POST", "/api/classify", none, none⟩ (fun _ => .response 503 none)
    (fun _ => 503) (fun _ => none) (fun _ => rfl) (fun _ => by norm_num)
    "Request failed with status 503" rfl).1

/-- C6: a timed-out attempt (the transport aborts) is classified as a
transient failure exactly like a 5xx — it is recorded as the last error and
the loop proceeds with the same attempt count and backoff schedule as an
all-5xx run — and when retries are exhausted the surfaced typed error has
code TIMEOUT and status 408. -/
theorem timeout_transient_with_code (cfg : ClientConfig) (options : RequestOptions)
    (transport : Nat → AttemptResult)
    (h : ∀ i, i ≤ cfg.maxRetries → transport i = .timeoutAbort) :
    ((request cfg options transport).trace =
      ⟨cfg.maxRetries + 1, (List.range cfg.maxRetries).map backoffDelay,
        .err (.supp ⟨"SuppError", "Request timed out", 408, "TIMEOUT"⟩)⟩)
    ∧ attemptStep .timeoutAbort =
        .record (.supp ⟨"SuppError", "Request timed out", 408, "TIMEOUT"⟩) := by
  refine ⟨?_, rfl⟩
  have htr := runAttempts_trace transport cfg.maxRetries cfg.maxRetries 0 le_rfl
    (fun i hi => ⟨_, by rw [Nat.zero_add, h i (by omega)]; rfl⟩)
    (Or.inl rfl)
  show runAttempts transport 0 cfg.maxRetries = _
  rw [htr]
  simp only [Nat.zero_add]
  rw [h cfg.maxRetries le_rfl]
  rfl

/-- C6 witness: two timeouts under `maxRetries = 1` give 2 attempts, one
1000 ms sleep, and the TIMEOUT/408 error. -/
theorem timeout_transient_with_code_witness :
    (request ⟨"sk", "https://api.supp.support", 1, 30000⟩
        ⟨"GET", "/api/balance", none, none⟩ (fun _ => .timeoutAbort)).trace =
      ⟨2, [1000], .err (.supp ⟨"SuppError", "Request timed out", 408, "TIMEOUT"⟩)⟩ :=
  (timeout_transient_with_code _ _ _ (fun _ _ => rfl)).1

/-- C7 counterexample: on a 200 response whose body is `{"data": null}`,
the `data` field is present, yet the dispatcher returns the whole body
rather than the field's value — `json.data ?? json` falls back on `null` —
refuting the claim that a present `data` field is always returned. -/
theorem success_with_null_data_returns_whole_body :
    ((request ⟨"sk", "https://api.supp.support", 2, 30000⟩
        ⟨"GET", "/api/analytics", none, none⟩
        (fun _ => .response 200 (some (Json.obj [("data", Json.null)])))).trace.outcome =
      .ok (Json.obj [("data", Json.null)]))
    ∧ (Json.obj [("data", Json.null)]).getField "data" = .ok (some Json.null) :=
  ⟨rfl, rfl⟩

/-- C7 amended: on a first response with 2xx status whose body decodes to
JSON other than the literal null, the dispatcher returns immediately after
one attempt with no sleep; it returns the body's `data` field when that
field is present and non-null, and the whole decoded body when the field
is absent or null.  A 2xx body of literal null instead throws a
`TypeError` at the `json.data` access and is retried as transient. -/
theorem success_returns_unwrapped_data (cfg : ClientConfig) (options : RequestOptions)
    (transport : Nat → AttemptResult) (s : Nat) (j : Json)
    (h0 : transport 0 = .response s (some j)) (h2a : 200 ≤ s) (h2b : s < 300)
    (hj : j ≠ Json.null) :
    (request cfg options transport).trace.attempts = 1 ∧
    (request cfg options transport).trace.sleeps = [] ∧
    (∀ v, j.getField "data" = .ok (some v) → v.isNull = false →
      (request cfg options transport).trace.outcome = .ok v) ∧
    (j.getField "data" = .ok (some Json.null) →
      (request cfg options transport).trace.outcome = .ok j) ∧
    (j.getField "data" = .ok none →
      (request cfg options transport).trace.outcome = .ok j) := by
  obtain ⟨v0, hv0⟩ := unwrapData_ok_of_ne_null j hj
  have hstep : attemptStep (transport 0) = .success v0 := by
    rw [h0]
    exact attemptStep_2xx s j h2a h2b v0 hv0
  have htr := runAttempts_trace transport 0 cfg.maxRetries 0 (Nat.zero_le _)
    (fun i hi => absurd hi (Nat.not_lt_zero i))
    (Or.inr (by
      rw [Nat.add_zero, hstep]
      exact fun e h => StepOutcome.noConfusion h))
  have htrace : (request cfg options transport).trace = ⟨1, [], .ok v0⟩ := by
    show runAttempts transport 0 cfg.maxRetries = _
    rw [htr]
    simp [hstep, stepTerminalOutcome]
  refine ⟨by rw [htrace], by rw [htrace], ?_, ?_, ?_⟩
  · intro v hv hnull
    have hu : unwrapData j = .ok v := by simp [unwrapData, hv, hnull]
    have hveq : v = v0 := Except.ok.inj (hu.symm.trans hv0)
    rw [htrace]
    show Outcome.ok v0 = Outcome.ok v
    rw [hveq]
  · intro hv
    have hu : unwrapData j = .ok j := by simp [unwrapData, hv, Json.isNull]
    have hveq : j = v0 := Except.ok.inj (hu.symm.trans hv0)
    rw [htrace]
    show Outcome.ok v0 = Outcome.ok j
    rw [hveq]
  · intro hv
    have hu : unwrapData j = .ok j := by simp [unwrapData, hv]
    have hveq : j = v0 := Except.ok.inj (hu.symm.trans hv0)
    rw [htrace]
    show Outcome.ok v0 = Outcome.ok j
    rw [hveq]

/-- C7 witness: a 200 response with body `{"data": "payload"}` returns the
`data` field's value after a single attempt. -/
theorem success_returns_unwrapped_data_witness :
    (request ⟨"sk", "https://api.supp.support", 2, 30000⟩
        ⟨"GET", "/api/analytics", none, none⟩
        (fun _ => .response 200
          (some (Json.obj [("data", Json.str "payload")])))).trace.outcome =
      .ok (Json.str "payload") :=
  (success_returns_unwrapped_data _ _ _ 200 (Json.obj [("data", Json.str "payload")])
    rfl (by omega) (by omega) (fun h => Json.noConfusion h)).2.2.1
    (Json.str "payload") rfl rfl

/-- C9: a 400 response with body `{"error": "bad intent"}` yields exactly
one network call and an error with code VALIDATION_ERROR, status 400 and
message "bad intent"; in general each status maps through the status→kind
table (400 Validation, 401 Authentication, 402 InsufficientBalance, 403
Forbidden, 404 NotFound, 429 RateLimit, any other status Generic), with
the message taken from the body's `error` field, or synthesized as
`Request failed with status <code>` when the body is empty (as an
undecodable body is decoded to) or lacks the field. -/
theorem error_mapping_table (cfg : ClientConfig) (options : RequestOptions)
    (transport : Nat → AttemptResult)
    (h0 : transport 0 = .response 400 (some (Json.obj [("error", Json.str "bad intent")]))) :
    ((request cfg options transport).trace =
      ⟨1, [], .err (.supp ⟨"ValidationError", "bad intent", 400, "VALIDATION_ERROR"⟩)⟩)
    ∧ (∀ m : String,
        buildError 400 m = ⟨"ValidationError", m, 400, "VALIDATION_ERROR"⟩ ∧
        buildError 401 m = ⟨"AuthenticationError", m, 401, "AUTHENTICATION_ERROR"⟩ ∧
        buildError 402 m = ⟨"InsufficientBalanceError", m, 402, "INSUFFICIENT_BALANCE"⟩ ∧
        buildError 403 m = ⟨"ForbiddenError", m, 403, "FORBIDDEN"⟩ ∧
        buildError 404 m = ⟨"NotFoundError", m, 404, "NOT_FOUND"⟩ ∧
        buildError 429 m = ⟨"RateLimitError", m, 429, "RATE_LIMITED"⟩)
    ∧ (∀ (st : Nat) (m : String), st ∉ ([400, 401, 402, 403, 404, 429] : List Nat) →
        buildError st m = ⟨"SuppError", m, st, "HTTP_" ++ toString st⟩)
    ∧ (∀ st : Nat, extractMessage (Json.obj []) st =
        .ok ("Request failed with status " ++ toString st)) := by
  refine ⟨?_, fun m => ⟨rfl, rfl, rfl, rfl, rfl, rfl⟩, ?_, fun st => rfl⟩
  · have hmsg : extractMessage (Json.obj [("error", Json.str "bad intent")]) 400 =
        .ok "bad intent" := by
      simp [extractMessage, Json.getField, lookupField, Json.isNull, Json.jsString]
    exact request_below500_trace cfg options transport 400
      (some (Json.obj [("error", Json.str "bad intent")])) h0 (by decide) (by omega)
      "bad intent" (by rw [Option.getD_some]; exact hmsg)
  · intro st m hst
    simp only [List.mem_cons, List.not_mem_nil, or_false, not_or] at hst
    obtain ⟨h1, h2, h3, h4, h5, h6⟩ := hst
    rw [buildError, if_neg h1, if_neg h2, if_neg h3, if_neg h4, if_neg h5, if_neg h6]
    rfl

/-- C9 witness: the concrete 400/"bad intent" scenario. -/
theorem error_mapping_table_witness :
    (request ⟨"sk", "https://api.supp.support", 2, 30000⟩
        ⟨"POST", "/api/classify", none, none⟩
        (fun _ => .response 400
          (some (Json.obj [("error", Json.str "bad intent")])))).trace =
      ⟨1, [], .err (.supp ⟨"ValidationError", "bad intent", 400, "VALIDATION_ERROR"⟩)⟩ :=
  (error_mapping_table _ _ _ rfl).1

/-- C8: the target URL is the configured base URL joined with the
descriptor's path, followed by exactly the query parameters whose value is
not absent, with URL-encoded keys and values (stated for query objects
with pairwise-distinct keys, the only shape a JavaScript object literal
can present); in particular `{limit: 10, status: undefined}` yields a URL
containing `limit=10` and no `status` key. -/
theorem buildUrl_skips_absent_params (cfg : ClientConfig) (path : String)
    (q : List (String × Option Scalar)) (hnd : (q.map Prod.fst).Nodup) :
    (buildUrl cfg path (some q) =
      (if (queryPairs q).isEmpty then resolveUrl path cfg.baseUrl
       else resolveUrl path cfg.baseUrl ++ "?" ++ serializeSearchParams (queryPairs q)))
    ∧ buildUrl ⟨"sk", "https://api.supp.support", 2, 30000⟩ "/api/conversations"
        (some [("limit", some (Scalar.i 10)), ("status", none)]) =
      "https://api.supp.support/api/conversations?limit=10" := by
  constructor
  · simp only [buildUrl]
    rw [foldl_set_eq_queryPairs q [] hnd (fun p hp => absurd hp (List.not_mem_nil p))]
    rw [List.nil_append]
  · rfl

/-- C8 witness: the round-trip scenario with distinct keys. -/
theorem buildUrl_skips_absent_params_witness :
    buildUrl ⟨"sk", "https://api.supp.support", 2, 30000⟩ "/api/conversations"
        (some [("limit", some (Scalar.i 10)), ("status", none)]) =
      "https://api.supp.support/api/conversations?limit=10" :=
  (buildUrl_skips_absent_params ⟨"sk", "https://api.supp.support", 2, 30000⟩
    "/api/conversations" [("limit", some (Scalar.i 10)), ("status", none)]
    (by decide)).2

/-- C4 counterexample: a network-level transport failure that exhausts the
retry budget is re-thrown as the transport's own plain `Error` — carrying
no `code` and no `status` — refuting the claim that every failing outcome
surfaces as a typed error with a stable machine-readable code. -/
theorem network_failure_surfaces_untyped_error :
    (request ⟨"sk", "https://api.supp.support", 0, 30000⟩
        ⟨"GET", "/api/balance", none, none⟩
        (fun _ => .netError "fetch failed")).trace =
      ⟨1, [], .err (.plain "fetch failed")⟩ := rfl

/-- C4 amended: when no attempt fails at the network level, every 2xx body
decodes, and no decoded body is the JSON literal null (whose property
access throws a `TypeError` surfaced as an untyped error), every failing
outcome — 4xx, exhausted 5xx retries, or timeout — surfaces as a typed
`SuppError` carrying a nonempty machine-readable code, a human message,
and a status; a network-level transport failure, by contrast, is
re-surfaced as the transport's own untyped error after the same retry
schedule. -/
theorem failures_typed_unless_network (cfg : ClientConfig) (options : RequestOptions)
    (transport : Nat → AttemptResult)
    (hclean : ∀ i, i ≤ cfg.maxRetries →
      (∀ m, transport i ≠ .netError m) ∧
      (∀ st, responseOk st = true → transport i ≠ .response st none) ∧
      (∀ st, transport i ≠ .response st (some Json.null))) :
    ∀ t, (request cfg options transport).trace.outcome = .err t →
      ∃ e : SuppError, t = .supp e ∧ e.code ≠ "" := by
  intro t h
  obtain ⟨i, hi, hstep⟩ := runAttempts_err_from_step transport cfg.maxRetries 0 t h
  rw [Nat.zero_add] at hstep
  obtain ⟨hnet, hok, hnn⟩ := hclean i hi
  cases hres : transport i with
  | netError m => exact absurd hres (hnet m)
  | timeoutAbort =>
    rw [hres] at hstep
    have ht := Option.some.inj hstep
    exact ⟨mkSuppError "Request timed out" 408 (some "TIMEOUT"), ht.symm, by decide⟩
  | response st bd =>
    have hbd : bd ≠ some Json.null := by
      intro hc
      exact hnn st (by rw [hres, hc])
    obtain ⟨m0, hm0⟩ := extractMessage_ok_of_ne_null (bd.getD (Json.obj [])) st
      (getD_ne_null bd hbd)
    rw [hres] at hstep
    cases hb : responseOk st with
    | false =>
      by_cases h5 : st < 500
      · rw [attemptStep_below500 st bd hb h5 m0 hm0, stepError] at hstep
        have ht := Option.some.inj hstep
        exact ⟨buildError st m0, ht.symm, buildError_code_ne_empty st _⟩
      · rw [attemptStep_5xx st bd (by omega) m0 hm0] at hstep
        rw [stepError] at hstep
        have ht := Option.some.inj hstep
        exact ⟨mkSuppError m0 st none, ht.symm, http_code_ne_empty st⟩
    | true =>
      cases bd with
      | none => exact absurd hres (hok st hb)
      | some j =>
        have h2 : 200 ≤ st ∧ st < 300 := by
          have hb2 := hb
          simp [responseOk] at hb2
          omega
        have hj : j ≠ Json.null := by
          intro hc
          exact hbd (by rw [hc])
        obtain ⟨v, hv⟩ := unwrapData_ok_of_ne_null j hj
        rw [attemptStep_2xx st j h2.1 h2.2 v hv, stepError] at hstep
        exact absurd hstep (by simp)

/-- C4 amended witness: a single 500 with an undecodable error body
surfaces as a typed generic error with nonempty code. -/
theorem failures_typed_unless_network_witness :
    ∃ e : SuppError,
      ThrownError.supp (mkSuppError "Request failed with status 500" 500 none) = .supp e ∧
      e.code ≠ "" :=
  failures_typed_unless_network ⟨"sk", "https://api.supp.support", 0, 30000⟩
    ⟨"GET", "/api/balance", none, none⟩ (fun _ => .response 500 none)
    (fun i _ => ⟨fun m hm => AttemptResult.noConfusion hm,
      fun st hst heq => by
        cases heq
        exact absurd hst (by decide),
      fun st heq => by
        injection heq with h1 h2
        exact Option.noConfusion h2⟩)
    (.supp (mkSuppError "Request failed with status 500" 500 none)) rfl

end SuppTs
